import Mathlib

/-!
# Verification of the manifest synchronization and validation engine

A shallow embedding of the `GitUtil` / `ManifestUtil` classes
(`src/utils/GitUtil.ts`): the full-mirror staleness check `outOfDate`, the
refresh pipeline `refreshGit` / `getExecutableManifest`, the manifest-only
TTL staleness check of `refreshGitManifest`, and the manifest validator
`processExecutableManifest`.

JSON scalar values are modelled by `JVal` (integers, strings, and the
not-a-number result of arithmetic on non-numeric strings); JavaScript
truthiness is modelled by `truthyJ` / `tstr`.  Absent object fields are
modelled by `Option`.
-/

namespace CyberGIS

/-- A JSON scalar as it flows through the rule-normalization code:
a number, a string, or the NaN produced by multiplying a non-numeric
string. -/
inductive JVal where
  | num : Int → JVal
  | str : String → JVal
  | nan : JVal
deriving DecidableEq, Repr

/-- JavaScript truthiness of a possibly-absent scalar field:
`undefined`, `0`, `""` and `NaN` are falsy. -/
def truthyJ : Option JVal → Bool
  | none => false
  | some (.num n) => n != 0
  | some (.str s) => s != ""
  | some .nan => false

/-- JavaScript truthiness of a possibly-absent string field. -/
def tstr : Option String → Bool
  | none => false
  | some s => s != ""

/-- JavaScript `x * 2` as applied to a rule's `default_value`. -/
def jsMul2 : JVal → JVal
  | .num n => .num (2 * n)
  | .str s =>
    match s.toInt? with
    | some n => .num (2 * n)
    | none => .nan
  | .nan => .nan

/-- A raw rule object as parsed from the manifest JSON: every field may be
absent.  Covers both `slurm_input_rules` entries and `param_rules` entries
(the latter additionally carry `type`). -/
@[ext]
structure RawRule where
  default_value : Option JVal := none
  min : Option JVal := none
  max : Option JVal := none
  step : Option JVal := none
  unit : Option String := none
  options : Option (List JVal) := none
  type : Option String := none
deriving DecidableEq, Repr

/-- A manifest document.  Used both for the parsed input of
`processExecutableManifest` and for its normalized output (the code mutates
the parsed object in place). -/
@[ext]
structure RawManifest where
  name : Option String := none
  container : Option String := none
  connector : Option String := none
  pre_processing_stage : Option String := none
  execution_stage : Option String := none
  post_processing_stage : Option String := none
  description : Option String := none
  estimated_runtime : Option String := none
  supported_hpc : Option (List String) := none
  default_hpc : Option String := none
  repository : Option String := none
  require_upload_data : Option Bool := none
  slurm_input_rules : Option (List (String × RawRule)) := none
  param_rules : Option (List (String × RawRule)) := none
deriving DecidableEq, Repr

/-- Modelled from the spec: the closed catalog of recognized
cluster-resource rule names (`slurm_configs` and its category sub-lists in
`src/utils/types.ts`, which is not part of the sources given).  Per the
spec, integer rules fall into a time-unit category, a storage-unit
category, and a unitless category, and the catalog additionally holds the
string-option rule names. -/
structure Catalog where
  time_unit : List String
  storage_unit : List String
  none_unit : List String
  string_option : List String
deriving DecidableEq, Repr

/-- Modelled from the spec: `slurm_integer_configs` is the union of the
three integer unit categories. -/
def Catalog.integer_configs (c : Catalog) : List String :=
  c.storage_unit ++ c.time_unit ++ c.none_unit

/-- Modelled from the spec: `slurm_configs` is the full closed catalog —
all integer rule names plus the string-option rule names. -/
def Catalog.slurm_all (c : Catalog) : List String :=
  c.integer_configs ++ c.string_option

/-- Modelled from the spec: a concrete catalog with one representative
name per category — `time` (time-unit, as in the spec's scenario),
`memory` (storage-unit), `num_of_node` (unitless), `partition`
(string-option). -/
def specCatalog : Catalog :=
  { time_unit := ["time"]
    storage_unit := ["memory"]
    none_unit := ["num_of_node"]
    string_option := ["partition"] }

/-- The integer-rule defaulting block: fill a falsy `max` with twice the
default value, a falsy `min` with `0`, a falsy `step` with `1`. -/
def fillInt (r : RawRule) : RawRule :=
  { r with
    max := if truthyJ r.max then r.max else some (jsMul2 (r.default_value.getD (.num 0)))
    min := if truthyJ r.min then r.min else some (.num 0)
    step := if truthyJ r.step then r.step else some (.num 1) }

/-- The string-option defaulting block: an absent `options` list becomes
the singleton of the default value, and the default value is appended when
the list does not contain it. -/
def fillOpts (r : RawRule) : RawRule :=
  let d := r.default_value.getD (.num 0)
  let os := r.options.getD [d]
  { r with options := some (if d ∈ os then os else os ++ [d]) }

/-- Whether a declared `unit` is outside the allowed set for a unit-bearing
integer category (`undefined` passes). -/
def badUnit (allowed : List String) : Option String → Bool
  | none => false
  | some u => !(allowed.contains u)

/-- One entry of the `slurm_input_rules` loop of
`processExecutableManifest`: returns `none` when the loop deletes the
entry, and the normalized rule otherwise. -/
def processSlurmRule (cat : Catalog) (n : String) (r : RawRule) : Option RawRule :=
  if !(cat.slurm_all.contains n) then none
  else if !(truthyJ r.default_value) then none
  else if cat.time_unit.contains n && badUnit ["Minutes", "Hours", "Days"] r.unit then none
  else if cat.storage_unit.contains n && badUnit ["GB", "MB"] r.unit then none
  else if cat.none_unit.contains n then some { r with unit := some "None" }
  else
    let r1 := if cat.integer_configs.contains n then fillInt r else r
    some (if cat.string_option.contains n then fillOpts r1 else r1)

/-- One entry of the `param_rules` loop of `processExecutableManifest`:
returns `none` when the loop deletes the entry, and the normalized rule
otherwise. -/
def processParamRule (r : RawRule) : Option RawRule :=
  if !(truthyJ r.default_value) then none
  else if !(["integer", "string_option", "string_input"].contains (r.type.getD "")) then none
  else
    let r1 := if r.type == some "integer" then fillInt r else r
    some (if r1.type == some "string_option" then fillOpts r1 else r1)

/-- The `Object.assign` merge of the parsed document over the fixed
defaults at the top of `processExecutableManifest`. -/
def mergeDefaults (address : String) (doc : RawManifest) : RawManifest :=
  { doc with
    description := some (doc.description.getD "none")
    estimated_runtime := some (doc.estimated_runtime.getD "unknown")
    supported_hpc := some (doc.supported_hpc.getD ["keeling_community"])
    repository := some (doc.repository.getD address)
    require_upload_data := some (doc.require_upload_data.getD false)
    slurm_input_rules := some (doc.slurm_input_rules.getD [])
    param_rules := some (doc.param_rules.getD []) }

/-- The `default_hpc` value after the fix-up step: kept when truthy,
otherwise replaced by the first supported cluster (which is `undefined`
when `supported_hpc` is empty). -/
def hpcD (m : RawManifest) : Option String :=
  if tstr m.default_hpc then m.default_hpc else (m.supported_hpc.getD []).head?

/-- Run one rule mapping through its per-entry normalizer, deleting the
entries the normalizer rejects. -/
def runRules (f : String × RawRule → Option RawRule)
    (l : List (String × RawRule)) : List (String × RawRule) :=
  l.filterMap (fun p => (f p).map (fun r => (p.1, r)))

/-- `GitUtil.processExecutableManifest`: merge the parsed document over the
defaults, fix up `default_hpc`, and normalize both rule mappings. -/
def processExecutableManifest (cat : Catalog) (address : String)
    (doc : RawManifest) : RawManifest :=
  let m := mergeDefaults address doc
  { m with
    default_hpc := hpcD m
    slurm_input_rules :=
      some (runRules (fun p => processSlurmRule cat p.1 p.2) (m.slurm_input_rules.getD []))
    param_rules :=
      some (runRules (fun p => processParamRule p.2) (m.param_rules.getD [])) }

/-! ## Basic facts about the rule normalizers -/

@[simp]
theorem fillInt_default_value (r : RawRule) : (fillInt r).default_value = r.default_value := rfl

@[simp]
theorem fillInt_unit (r : RawRule) : (fillInt r).unit = r.unit := rfl

@[simp]
theorem fillInt_type (r : RawRule) : (fillInt r).type = r.type := rfl

@[simp]
theorem fillInt_options (r : RawRule) : (fillInt r).options = r.options := rfl

@[simp]
theorem fillOpts_default_value (r : RawRule) : (fillOpts r).default_value = r.default_value := rfl

@[simp]
theorem fillOpts_unit (r : RawRule) : (fillOpts r).unit = r.unit := rfl

@[simp]
theorem fillOpts_type (r : RawRule) : (fillOpts r).type = r.type := rfl

@[simp]
theorem fillOpts_min (r : RawRule) : (fillOpts r).min = r.min := rfl

@[simp]
theorem fillOpts_max (r : RawRule) : (fillOpts r).max = r.max := rfl

@[simp]
theorem fillOpts_step (r : RawRule) : (fillOpts r).step = r.step := rfl

/-- A surviving slurm rule keeps its `default_value` unchanged, and that
value is truthy. -/
theorem processSlurmRule_default (cat : Catalog) (n : String) (r r2 : RawRule)
    (h : processSlurmRule cat n r = some r2) :
    r2.default_value = r.default_value ∧ truthyJ r.default_value = true := by
  unfold processSlurmRule at h
  split at h
  · exact absurd h (by simp)
  · split at h
    · exact absurd h (by simp)
    · next h2 =>
      simp only [Bool.not_eq_true', Bool.not_eq_false] at h2
      split at h
      · exact absurd h (by simp)
      · split at h
        · exact absurd h (by simp)
        · split at h
          · refine ⟨?_, h2⟩
            cases h
            rfl
          · refine ⟨?_, h2⟩
            cases h
            split <;> split <;> simp

/-- A surviving param rule keeps its `default_value` and `type` unchanged,
and the default value is truthy. -/
theorem processParamRule_default (r r2 : RawRule)
    (h : processParamRule r = some r2) :
    r2.default_value = r.default_value ∧ r2.type = r.type ∧
      truthyJ r.default_value = true := by
  unfold processParamRule at h
  split at h
  · exact absurd h (by simp)
  · next h1 =>
    simp only [Bool.not_eq_true', Bool.not_eq_false] at h1
    split at h
    · exact absurd h (by simp)
    · cases h
      refine ⟨?_, ?_, h1⟩ <;> split <;> split <;> simp

/-- Whether an integer-typed rule's numeric fields are all present and
satisfy `min ≤ default ≤ max` with a positive `step`. -/
def intRuleBoundsOk (r : RawRule) : Bool :=
  match r.default_value, r.min, r.max, r.step with
  | some (.num d), some (.num mn), some (.num mx), some (.num s) =>
      decide (mn ≤ d) && decide (d ≤ mx) && decide (0 < s)
  | _, _, _, _ => false

/-- Membership in a processed rule mapping comes from a source entry that
the per-entry normalizer accepted. -/
theorem runRules_mem (f : String × RawRule → Option RawRule)
    (l : List (String × RawRule)) (n : String) (r2 : RawRule)
    (h : (n, r2) ∈ runRules f l) : ∃ r, (n, r) ∈ l ∧ f (n, r) = some r2 := by
  unfold runRules at h
  rw [List.mem_filterMap] at h
  obtain ⟨⟨m, r⟩, hm, hf⟩ := h
  cases hg : f (m, r) with
  | none => rw [hg] at hf; simp at hf
  | some r3 =>
    rw [hg] at hf
    simp only [Option.map_some', Option.some.injEq, Prod.mk.injEq] at hf
    obtain ⟨hm1, hr⟩ := hf
    subst hm1; subst hr
    exact ⟨r, hm, hg⟩

@[simp]
theorem processExecutableManifest_slurm (cat : Catalog) (address : String)
    (doc : RawManifest) :
    (processExecutableManifest cat address doc).slurm_input_rules =
      some (runRules (fun p => processSlurmRule cat p.1 p.2)
        ((mergeDefaults address doc).slurm_input_rules.getD [])) := rfl

@[simp]
theorem processExecutableManifest_params (cat : Catalog) (address : String)
    (doc : RawManifest) :
    (processExecutableManifest cat address doc).param_rules =
      some (runRules (fun p => processParamRule p.2)
        ((mergeDefaults address doc).param_rules.getD [])) := rfl

/-- When `min`, `max` and `step` are absent, `fillInt` fills them with `0`,
twice the default, and `1`. -/
theorem fillInt_absent (r : RawRule) (d : Int)
    (hmin : r.min = none) (hmax : r.max = none) (hstep : r.step = none)
    (hd : r.default_value = some (.num d)) :
    (fillInt r).min = some (.num 0) ∧ (fillInt r).max = some (.num (2 * d)) ∧
      (fillInt r).step = some (.num 1) := by
  simp [fillInt, hmin, hmax, hstep, hd, truthyJ, jsMul2]

/-- A surviving slurm rule in an integer category other than the unitless
one has the `min`/`max`/`step` of `fillInt` applied to the input rule. -/
theorem processSlurmRule_intShape (cat : Catalog) (n : String) (r r2 : RawRule)
    (h : processSlurmRule cat n r = some r2)
    (hint : cat.integer_configs.contains n = true)
    (hnone : cat.none_unit.contains n = false) :
    r2.min = (fillInt r).min ∧ r2.max = (fillInt r).max ∧
      r2.step = (fillInt r).step ∧ r2.default_value = r.default_value := by
  unfold processSlurmRule at h
  split at h
  · exact absurd h (by simp)
  · split at h
    · exact absurd h (by simp)
    · split at h
      · exact absurd h (by simp)
      · split at h
        · exact absurd h (by simp)
        · split at h
          · simp_all
          · simp only [hint, if_true] at h
            split at h <;> (cases h; simp)

/-- A surviving integer-typed param rule is exactly `fillInt` of the input
rule. -/
theorem processParamRule_intShape (r r2 : RawRule)
    (h : processParamRule r = some r2) (ht : r.type = some "integer") :
    r2 = fillInt r := by
  unfold processParamRule at h
  split at h
  · exact absurd h (by simp)
  · split at h
    · exact absurd h (by simp)
    · simp only [ht, beq_self_eq_true, if_true, fillInt_type] at h
      simp only [show ((some "integer" : Option String) == some "string_option") = false from rfl,
        Bool.false_eq_true, if_false, Option.some.injEq] at h
      exact h.symm

@[simp]
theorem processExecutableManifest_default_hpc (cat : Catalog) (address : String)
    (doc : RawManifest) :
    (processExecutableManifest cat address doc).default_hpc =
      hpcD (mergeDefaults address doc) := rfl

@[simp]
theorem processExecutableManifest_supported (cat : Catalog) (address : String)
    (doc : RawManifest) :
    (processExecutableManifest cat address doc).supported_hpc =
      some (doc.supported_hpc.getD ["keeling_community"]) := rfl

@[simp]
theorem mergeDefaults_default_hpc (address : String) (doc : RawManifest) :
    (mergeDefaults address doc).default_hpc = doc.default_hpc := rfl

@[simp]
theorem mergeDefaults_supported (address : String) (doc : RawManifest) :
    (mergeDefaults address doc).supported_hpc =
      some (doc.supported_hpc.getD ["keeling_community"]) := rfl

/-! ## Claim C2 -/

/-- **C2** (amended).  Every rule that survives validation, in either the
cluster-resource mapping or the parameter mapping, has a truthy (non-empty,
non-zero) default value.  The numeric-bounds invariant `min ≤ default ≤
max` with positive `step` holds for the *filled* bounds: a numeric rule
whose `min`, `max` and `step` were all absent in the input and whose
default is a positive integer satisfies it — for parameter rules typed
`integer`, and for cluster-resource rules in an integer category other
than the unitless one (unitless rules skip bound filling).  Explicitly
supplied bounds are not checked by the validator. -/
theorem claim2_rule_invariants :
    (∀ cat addr doc n r2,
      (n, r2) ∈ (processExecutableManifest cat addr doc).slurm_input_rules.getD [] →
        truthyJ r2.default_value = true)
  ∧ (∀ cat addr doc n r2,
      (n, r2) ∈ (processExecutableManifest cat addr doc).param_rules.getD [] →
        truthyJ r2.default_value = true)
  ∧ (∀ r r2 d, processParamRule r = some r2 → r.type = some "integer" →
      r.min = none → r.max = none → r.step = none →
      r.default_value = some (.num d) → 0 < d → intRuleBoundsOk r2 = true)
  ∧ (∀ cat n r r2 d, processSlurmRule cat n r = some r2 →
      cat.integer_configs.contains n = true →
      cat.none_unit.contains n = false →
      r.min = none → r.max = none → r.step = none →
      r.default_value = some (.num d) → 0 < d → intRuleBoundsOk r2 = true) := by
  refine ⟨?_, ?_, ?_, ?_⟩
  · intro cat addr doc n r2 hmem
    rw [processExecutableManifest_slurm] at hmem
    simp only [Option.getD_some] at hmem
    obtain ⟨r, _, hf⟩ := runRules_mem _ _ _ _ hmem
    obtain ⟨he, ht⟩ := processSlurmRule_default cat n r r2 hf
    rw [he, ht]
  · intro cat addr doc n r2 hmem
    rw [processExecutableManifest_params] at hmem
    simp only [Option.getD_some] at hmem
    obtain ⟨r, _, hf⟩ := runRules_mem _ _ _ _ hmem
    obtain ⟨he, _, ht⟩ := processParamRule_default r r2 hf
    rw [he, ht]
  · intro r r2 d h htype hmin hmax hstep hd hdpos
    rw [processParamRule_intShape r r2 h htype]
    obtain ⟨f1, f2, f3⟩ := fillInt_absent r d hmin hmax hstep hd
    unfold intRuleBoundsOk
    rw [f1, f2, f3, fillInt_default_value, hd]
    simp only [Bool.and_eq_true, decide_eq_true_eq]
    omega
  · intro cat n r r2 d h hint hnone hmin hmax hstep hd hdpos
    obtain ⟨e1, e2, e3, e4⟩ := processSlurmRule_intShape cat n r r2 h hint hnone
    obtain ⟨f1, f2, f3⟩ := fillInt_absent r d hmin hmax hstep hd
    unfold intRuleBoundsOk
    rw [e1, e2, e3, e4, f1, f2, f3, hd]
    simp only [Bool.and_eq_true, decide_eq_true_eq]
    omega

/-- **C2** (witness): the amended invariant evaluated on a concrete
integer param rule with default `5` and no supplied bounds. -/
theorem claim2_witness :
    intRuleBoundsOk
      { default_value := some (.num 5), min := some (.num 0),
        max := some (.num 10), step := some (.num 1),
        type := some "integer" } = true :=
  claim2_rule_invariants.2.2.1
    { default_value := some (.num 5), type := some "integer" } _ 5
    (by decide) rfl rfl rfl rfl rfl (by decide)

/-- **C2** (counterexample): a param rule typed `integer` with default `5`
and an explicitly supplied `min = 10` survives validation, and the
validated output violates `min ≤ default`, refuting the claim that every
surviving numeric rule has `min ≤ default ≤ max`. -/
theorem claim2_counterexample :
    (processExecutableManifest specCatalog "addr"
      { param_rules := some [("x",
          { default_value := some (.num 5), min := some (.num 10),
            type := some "integer" })] }).param_rules
      = some [("x",
          { default_value := some (.num 5), min := some (.num 10),
            max := some (.num 10), step := some (.num 1),
            type := some "integer" })]
  ∧ intRuleBoundsOk
      { default_value := some (.num 5), min := some (.num 10),
        max := some (.num 10), step := some (.num 1),
        type := some "integer" } = false := by
  decide

/-! ## Claim C3 -/

/-- **C3** (amended).  When `default_hpc` is unset (falsy) in the input,
the validated output's `default_hpc` is the head of the output's
`supported_hpc`, hence a member whenever that list is non-empty.  When the
input explicitly sets a truthy `default_hpc`, it is copied unchanged even
if it is not a member of `supported_hpc`. -/
theorem claim3_default_hpc (cat : Catalog) (addr : String) (doc : RawManifest) :
    (tstr doc.default_hpc = false →
      (processExecutableManifest cat addr doc).default_hpc
        = ((processExecutableManifest cat addr doc).supported_hpc.getD []).head?)
  ∧ (tstr doc.default_hpc = false →
      (processExecutableManifest cat addr doc).supported_hpc.getD [] ≠ [] →
      (processExecutableManifest cat addr doc).default_hpc.getD ""
        ∈ (processExecutableManifest cat addr doc).supported_hpc.getD [])
  ∧ (tstr doc.default_hpc = true →
      (processExecutableManifest cat addr doc).default_hpc = doc.default_hpc) := by
  refine ⟨?_, ?_, ?_⟩
  · intro hfalse
    simp [hpcD, hfalse]
  · intro hfalse hne
    simp only [processExecutableManifest_default_hpc,
      processExecutableManifest_supported, Option.getD_some] at hne ⊢
    unfold hpcD
    rw [mergeDefaults_default_hpc, hfalse]
    simp only [Bool.false_eq_true, if_false, mergeDefaults_supported, Option.getD_some]
    cases hl : doc.supported_hpc.getD ["keeling_community"] with
    | nil => exact absurd hl hne
    | cons a t => simp
  · intro htrue
    simp [hpcD, htrue]

/-- **C3** (witness): on the empty document, the default `supported_hpc`
is `["keeling_community"]` and `default_hpc` becomes its head and member. -/
theorem claim3_witness :
    (processExecutableManifest specCatalog "a" ({} : RawManifest)).default_hpc
      = ((processExecutableManifest specCatalog "a" ({} : RawManifest)).supported_hpc.getD []).head?
  ∧ (processExecutableManifest specCatalog "a" ({} : RawManifest)).default_hpc.getD ""
      ∈ (processExecutableManifest specCatalog "a" ({} : RawManifest)).supported_hpc.getD [] :=
  ⟨(claim3_default_hpc specCatalog "a" {}).1 rfl,
   (claim3_default_hpc specCatalog "a" {}).2.1 rfl (by decide)⟩

/-- **C3** (counterexample): an input that explicitly sets
`default_hpc = "X"` with `supported_hpc = ["Y"]` is validated without
change, so the output's `default_hpc` is not a member of the output's
`supported_hpc`, refuting the membership invariant. -/
theorem claim3_counterexample :
    (processExecutableManifest specCatalog "addr"
      { default_hpc := some "X", supported_hpc := some ["Y"] }).default_hpc = some "X"
  ∧ (processExecutableManifest specCatalog "addr"
      { default_hpc := some "X", supported_hpc := some ["Y"] }).supported_hpc = some ["Y"]
  ∧ ¬ ("X" ∈ ["Y"]) := by
  decide

/-! ## Claim C6 -/

/-- **C6** (amended).  For integer rules that survive validation, missing
`max` is filled as exactly twice the default, missing `min` as zero and
missing `step` as one — for parameter rules typed `integer` and for
cluster-resource rules in an integer category other than the unitless one;
unitless cluster-resource integer rules are returned with their bounds
untouched. -/
theorem claim6_integer_defaults :
    (∀ r r2 d, processParamRule r = some r2 → r.type = some "integer" →
      r.default_value = some (.num d) →
      (r.max = none → r2.max = some (.num (2 * d)))
      ∧ (r.min = none → r2.min = some (.num 0))
      ∧ (r.step = none → r2.step = some (.num 1)))
  ∧ (∀ cat n r r2 d, processSlurmRule cat n r = some r2 →
      cat.integer_configs.contains n = true →
      cat.none_unit.contains n = false →
      r.default_value = some (.num d) →
      (r.max = none → r2.max = some (.num (2 * d)))
      ∧ (r.min = none → r2.min = some (.num 0))
      ∧ (r.step = none → r2.step = some (.num 1))) := by
  constructor
  · intro r r2 d h htype hd
    rw [processParamRule_intShape r r2 h htype]
    refine ⟨?_, ?_, ?_⟩ <;> intro hnone <;>
      simp [fillInt, truthyJ, hnone, hd, jsMul2]
  · intro cat n r r2 d h hint hnone hd
    obtain ⟨e1, e2, e3, _⟩ := processSlurmRule_intShape cat n r r2 h hint hnone
    rw [e1, e2, e3]
    refine ⟨?_, ?_, ?_⟩ <;> intro habs <;>
      simp [fillInt, truthyJ, habs, hd, jsMul2]

/-- **C6** (witness): the `time` cluster-resource rule with default `5`
and no bounds gets `max = 10`. -/
theorem claim6_witness :
    ({ default_value := some (.num 5), min := some (.num 0),
       max := some (.num 10), step := some (.num 1) } : RawRule).max
      = some (.num (2 * 5)) :=
  (claim6_integer_defaults.2 specCatalog "time"
    { default_value := some (.num 5) } _ 5
    (by decide) (by decide) (by decide) rfl).1 rfl

/-- **C6** (counterexample): a cluster-resource rule in the unitless
integer category (`num_of_node`) with default `5` and no `max` survives
validation with `max` still absent — not twice the default — refuting the
claim for cluster-resource integer rules of the unitless category. -/
theorem claim6_counterexample :
    (processExecutableManifest specCatalog "addr"
      { slurm_input_rules := some [("num_of_node",
          { default_value := some (.num 5) })] }).slurm_input_rules
      = some [("num_of_node",
          { default_value := some (.num 5), unit := some "None" })]
  ∧ specCatalog.integer_configs.contains "num_of_node" = true
  ∧ ({ default_value := some (.num 5), unit := some "None" } : RawRule).max = none := by
  decide

end CyberGIS

namespace CyberGIS

@[simp]
theorem truthyJ_num_zero : truthyJ (some (.num 0)) = false := rfl

@[simp]
theorem truthyJ_num_one : truthyJ (some (.num 1)) = true := by decide

theorem fillInt_idem (r : RawRule) : fillInt (fillInt r) = fillInt r := by
  have hmin : (fillInt (fillInt r)).min = (fillInt r).min := by
    by_cases h : truthyJ r.min
    · simp [fillInt, h]
    · have h2 : truthyJ r.min = false := by simpa using h
      simp [fillInt, h2]
  have hmax : (fillInt (fillInt r)).max = (fillInt r).max := by
    by_cases h : truthyJ r.max
    · simp [fillInt, h]
    · have h2 : truthyJ r.max = false := by simpa using h
      simp only [fillInt, h2, Bool.false_eq_true, if_false]
      split <;> rfl
  have hstep : (fillInt (fillInt r)).step = (fillInt r).step := by
    by_cases h : truthyJ r.step
    · simp [fillInt, h]
    · have h2 : truthyJ r.step = false := by simpa using h
      simp [fillInt, h2]
  exact RawRule.ext rfl hmin hmax hstep rfl rfl rfl

theorem fillOpts_mem (r : RawRule) :
    (r.default_value.getD (.num 0)) ∈ ((fillOpts r).options.getD []) := by
  simp only [fillOpts, Option.getD_some]
  split
  · next h => exact h
  · simp

theorem fillOpts_idem (r : RawRule) : fillOpts (fillOpts r) = fillOpts r := by
  have h := fillOpts_mem r
  refine RawRule.ext rfl rfl rfl rfl rfl ?_ rfl
  conv_lhs => rw [fillOpts]
  simp only [fillOpts_default_value, Option.getD_some]
  cases hos : (fillOpts r).options with
  | none => simp [fillOpts] at hos
  | some os2 =>
    rw [hos] at h
    simp only [Option.getD_some] at h ⊢
    simp [h]

theorem fillInt_fillOpts_comm (r : RawRule) :
    fillInt (fillOpts r) = fillOpts (fillInt r) := by
  obtain ⟨dv, mn, mx, st, u, os, ty⟩ := r
  rfl

end CyberGIS

namespace CyberGIS

theorem processParamRule_type_ok (r r2 : RawRule)
    (h : processParamRule r = some r2) :
    ["integer", "string_option", "string_input"].contains (r.type.getD "") = true := by
  unfold processParamRule at h
  split at h
  · exact absurd h (by simp)
  · split at h
    · exact absurd h (by simp)
    · next hcond =>
      simp only [Bool.not_eq_true', Bool.not_eq_false] at hcond
      exact hcond

theorem processParamRule_optShape (r r2 : RawRule)
    (h : processParamRule r = some r2) (ht : r.type = some "string_option") :
    r2 = fillOpts r := by
  unfold processParamRule at h
  split at h
  · exact absurd h (by simp)
  · split at h
    · exact absurd h (by simp)
    · simp only [ht,
        show ((some "string_option" : Option String) == some "integer") = false from rfl,
        beq_self_eq_true, Bool.false_eq_true, if_false, if_true, Option.some.injEq] at h
      exact h.symm

theorem processParamRule_strShape (r r2 : RawRule)
    (h : processParamRule r = some r2) (ht : r.type = some "string_input") :
    r2 = r := by
  unfold processParamRule at h
  split at h
  · exact absurd h (by simp)
  · split at h
    · exact absurd h (by simp)
    · simp only [ht,
        show ((some "string_input" : Option String) == some "integer") = false from rfl,
        show ((some "string_input" : Option String) == some "string_option") = false from rfl,
        Bool.false_eq_true, if_false, Option.some.injEq] at h
      exact h.symm

end CyberGIS

namespace CyberGIS

theorem processParamRule_idem (r r2 : RawRule)
    (h : processParamRule r = some r2) : processParamRule r2 = some r2 := by
  obtain ⟨hdv, hty, htruthy⟩ := processParamRule_default r r2 h
  have htok := processParamRule_type_ok r r2 h
  by_cases h1 : r.type = some "integer"
  · have hshape := processParamRule_intShape r r2 h h1
    subst hshape
    unfold processParamRule
    simp [fillInt_type, h1, htruthy, fillInt_idem]
  · by_cases h2 : r.type = some "string_option"
    · have hshape := processParamRule_optShape r r2 h h2
      subst hshape
      unfold processParamRule
      simp [fillOpts_type, h2, htruthy, fillOpts_idem]
    · by_cases h3 : r.type = some "string_input"
      · have hshape := processParamRule_strShape r r2 h h3
        subst hshape
        exact h
      · exfalso
        cases hr : r.type with
        | none =>
          rw [hr] at htok
          exact absurd htok (by decide)
        | some t =>
          rw [hr] at htok
          have ht3 : t = "integer" ∨ t = "string_option" ∨ t = "string_input" := by
            simpa using htok
          rcases ht3 with ht | ht | ht
          · exact h1 (by rw [hr, ht])
          · exact h2 (by rw [hr, ht])
          · exact h3 (by rw [hr, ht])

end CyberGIS

namespace CyberGIS

theorem processSlurmRule_idem (cat : Catalog)
    (hdt : ∀ x, cat.none_unit.contains x = true → cat.time_unit.contains x = false)
    (hds : ∀ x, cat.none_unit.contains x = true → cat.storage_unit.contains x = false)
    (n : String) (r r2 : RawRule)
    (h : processSlurmRule cat n r = some r2) :
    processSlurmRule cat n r2 = some r2 := by
  unfold processSlurmRule at h
  split at h
  · exact absurd h (by simp)
  next h1 =>
  simp only [Bool.not_eq_true', Bool.not_eq_false] at h1
  split at h
  · exact absurd h (by simp)
  next h2 =>
  simp only [Bool.not_eq_true', Bool.not_eq_false] at h2
  split at h
  · exact absurd h (by simp)
  next h3 =>
  simp only [Bool.not_eq_true] at h3
  split at h
  · exact absurd h (by simp)
  next h4 =>
  simp only [Bool.not_eq_true] at h4
  split at h
  · next h5 =>
    cases h
    unfold processSlurmRule
    simp only [h1, h2, hdt n h5, hds n h5, h5, Bool.not_true, Bool.false_and,
      Bool.false_eq_true, if_false, if_true]
  · next h5 =>
    simp only [Bool.not_eq_true] at h5
    by_cases hic : cat.integer_configs.contains n
    · by_cases hso : cat.string_option.contains n
      · simp only [hic, if_true, hso] at h
        cases h
        unfold processSlurmRule
        simp only [fillOpts_default_value, fillInt_default_value, fillOpts_unit,
          fillInt_unit, h1, h2, h3, h4, h5, hic, hso, Bool.not_true,
          Bool.false_eq_true, if_false, if_true]
        rw [fillInt_fillOpts_comm, fillInt_idem, fillOpts_idem]
      · simp only [hic, if_true, hso, Bool.false_eq_true, if_false] at h
        cases h
        unfold processSlurmRule
        simp only [fillInt_default_value, fillInt_unit, h1, h2, h3, h4, h5, hic,
          hso, Bool.not_true, Bool.false_eq_true, if_false, if_true]
        rw [fillInt_idem]
    · by_cases hso : cat.string_option.contains n
      · simp only [hic, Bool.false_eq_true, if_false, hso, if_true] at h
        cases h
        unfold processSlurmRule
        simp only [fillOpts_default_value, fillOpts_unit, h1, h2, h3, h4, h5, hic,
          hso, Bool.not_true, Bool.false_eq_true, if_false, if_true]
        rw [fillOpts_idem]
      · simp only [hic, hso, Bool.false_eq_true, if_false] at h
        cases h
        unfold processSlurmRule
        simp only [h1, h2, h3, h4, h5, hic, hso, Bool.not_true,
          Bool.false_eq_true, if_false, if_true]


end CyberGIS

namespace CyberGIS

theorem runRules_idem (f : String × RawRule → Option RawRule)
    (hf : ∀ n r r2, f (n, r) = some r2 → f (n, r2) = some r2)
    (l : List (String × RawRule)) :
    runRules f (runRules f l) = runRules f l := by
  induction l with
  | nil => rfl
  | cons p t ih =>
    obtain ⟨n, r⟩ := p
    cases hfr : f (n, r) with
    | none =>
      unfold runRules at ih ⊢
      simp [hfr, ih]
    | some r2 =>
      unfold runRules at ih ⊢
      simp [hfr, hf n r r2 hfr, ih]

theorem mergeDefaults_process (cat : Catalog) (addr : String) (doc : RawManifest) :
    mergeDefaults addr (processExecutableManifest cat addr doc)
      = processExecutableManifest cat addr doc := rfl

theorem hpcD_stable (m m2 : RawManifest)
    (hd : m2.default_hpc = hpcD m) (hs : m2.supported_hpc = m.supported_hpc) :
    hpcD m2 = m2.default_hpc := by
  unfold hpcD at hd ⊢
  by_cases h : tstr m.default_hpc
  · rw [h] at hd
    simp only [if_true] at hd
    rw [hd]
    simp [h]
  · have h2 : tstr m.default_hpc = false := by simpa using h
    rw [h2] at hd
    simp only [Bool.false_eq_true, if_false] at hd
    by_cases h3 : tstr m2.default_hpc
    · simp [h3]
    · have h4 : tstr m2.default_hpc = false := by simpa using h3
      rw [h4]
      simp only [Bool.false_eq_true, if_false]
      rw [hs, hd]

end CyberGIS

namespace CyberGIS

theorem processExecutableManifest_idem (cat : Catalog)
    (hdt : ∀ x, cat.none_unit.contains x = true → cat.time_unit.contains x = false)
    (hds : ∀ x, cat.none_unit.contains x = true → cat.storage_unit.contains x = false)
    (addr : String) (doc : RawManifest) :
    processExecutableManifest cat addr (processExecutableManifest cat addr doc)
      = processExecutableManifest cat addr doc := by
  refine RawManifest.ext rfl rfl rfl rfl rfl rfl rfl rfl rfl ?hd rfl rfl ?hs ?hp
  case hd =>
    exact hpcD_stable (mergeDefaults addr doc)
      (processExecutableManifest cat addr doc) rfl rfl
  case hs =>
    exact congrArg some (runRules_idem (fun p => processSlurmRule cat p.1 p.2)
      (fun n r r2 h => processSlurmRule_idem cat hdt hds n r r2 h)
      ((mergeDefaults addr doc).slurm_input_rules.getD []))
  case hp =>
    exact congrArg some (runRules_idem (fun p => processParamRule p.2)
      (fun n r r2 h => processParamRule_idem r r2 h)
      ((mergeDefaults addr doc).param_rules.getD []))

end CyberGIS

namespace CyberGIS

/-! ## Claim C7 -/

/-- **C7**: normalization is idempotent — validating the output of
validation (against the same fallback address) returns it unchanged, so a
document that already satisfies the validator's invariants (i.e. is a
fixed point of validation) is reproduced byte-for-byte. -/
theorem claim7_idempotent (addr : String) (doc : RawManifest) :
    processExecutableManifest specCatalog addr
      (processExecutableManifest specCatalog addr doc)
      = processExecutableManifest specCatalog addr doc := by
  apply processExecutableManifest_idem
  · intro x hx
    have hx2 : x = "num_of_node" := by simpa [specCatalog] using hx
    subst hx2
    decide
  · intro x hx
    have hx2 : x = "num_of_node" := by simpa [specCatalog] using hx
    subst hx2
    decide

end CyberGIS

namespace CyberGIS

/-! ## The full-mirror staleness check (claim C1) -/

/-- `GitUtil.outOfDate`: `sha` is the handle's pinned revision field,
`fetchHead` the remote head returned by the fetch (`null` when the remote
has no revision), `localSha` the oid of the most recent local history
entry.  Returns the value of
`(git.sha && localSha == git.sha) || remoteSha !== localSha`. -/
def outOfDate (sha : Option String) (fetchHead : Option String)
    (localSha : String) : Bool :=
  match fetchHead with
  | none => true
  | some h =>
    let remoteSha := if tstr sha then sha.getD "" else h
    (tstr sha && (localSha == sha.getD "")) || (remoteSha != localSha)

/-- Following the spec's words (for comparison with `outOfDate`): with a
pinned revision set, the mirror is stale when the remote has no revision
at all or the pinned revision differs from the local revision; when the
pinned revision already equals the local revision, it is stale only when
the general remote-vs-local comparison (pinned, as the authoritative
remote sha, versus local) also disagrees — hence fresh in that corner. -/
def specStalePinned (pinned : String) (fetchHead : Option String)
    (localSha : String) : Bool :=
  match fetchHead with
  | none => true
  | some _ =>
    if pinned == localSha then pinned != localSha else true

/-- **C1** (amended): for every handle whose pinned revision is set
(non-empty), the full-mirror staleness check reports stale on *every*
input — also when the pinned revision equals the local revision — because
the disjunction `localSha == git.sha || remoteSha !== localSha` (with
`remoteSha` overridden to the pinned sha) is exhaustive. -/
theorem claim1_pinned_always_stale (s : String) (hs : s ≠ "")
    (fetchHead : Option String) (localSha : String) :
    outOfDate (some s) fetchHead localSha = true := by
  unfold outOfDate
  cases fetchHead with
  | none => rfl
  | some h =>
    have ht : tstr (some s) = true := by simpa [tstr] using hs
    simp only [ht, if_true, Option.getD_some, Bool.true_and]
    by_cases he : localSha = s
    · simp [he]
    · simp [bne, Ne.symm he]

/-- **C1** (witness): the always-stale theorem evaluated at a pinned
revision that equals the local revision while the remote head agrees. -/
theorem claim1_witness :
    outOfDate (some "abc") (some "abc") "abc" = true :=
  claim1_pinned_always_stale "abc" (by decide) (some "abc") "abc"

/-- **C1** (counterexample): with pinned revision `abc` equal to the local
revision and a remote head present, the code reports stale while the
claimed determination reports fresh, refuting the claimed "exactly when"
characterization. -/
theorem claim1_counterexample :
    outOfDate (some "abc") (some "head") "abc" = true
  ∧ specStalePinned "abc" (some "head") "abc" = false := by
  decide

/-! ## The manifest-only TTL staleness check (claim C5) -/

/-- The elapsed-seconds computation of `ManifestUtil.refreshGitManifest`:
`(now.getTime() - (git.updatedAt !== undefined ? git.updatedAt.getTime()
: -999999)) / 1000.0`, in milliseconds since the epoch. -/
def secsSinceUpdate (nowMs : Int) (updatedAt : Option Int) : ℚ :=
  match updatedAt with
  | some t => ((nowMs : ℚ) - (t : ℚ)) / 1000
  | none => ((nowMs : ℚ) - (-999999 : ℚ)) / 1000

/-- The manifest-only mirror staleness decision: stale exactly when the
elapsed seconds exceed 120. -/
def manifestMirrorStale (nowMs : Int) (updatedAt : Option Int) : Bool :=
  decide (secsSinceUpdate nowMs updatedAt > 120)

/-- **C5**: the manifest-only staleness decision is purely time-based —
stale exactly when more than 120 seconds (120000 ms) elapsed since the
last sync; with no prior sync timestamp the elapsed value is very large
(at least 999.999 seconds for any non-negative clock), so the mirror is
always stale; 150 seconds since last sync is stale and 30 seconds is
fresh. -/
theorem claim5_ttl_staleness (nowMs t : Int) (hnow : 0 ≤ nowMs) :
    (manifestMirrorStale nowMs (some t) = true ↔ nowMs - t > 120000)
  ∧ manifestMirrorStale nowMs none = true
  ∧ manifestMirrorStale (t + 150000) (some t) = true
  ∧ manifestMirrorStale (t + 30000) (some t) = false := by
  refine ⟨?_, ?_, ?_, ?_⟩
  · unfold manifestMirrorStale secsSinceUpdate
    rw [decide_eq_true_iff, gt_iff_lt, lt_div_iff₀ (by norm_num : (0:ℚ) < 1000)]
    constructor
    · intro hlt
      have h2 : ((120000 : Int) : ℚ) < ((nowMs - t : Int) : ℚ) := by push_cast; linarith
      exact_mod_cast h2
    · intro hlt
      have h2 : ((120000 : Int) : ℚ) < ((nowMs - t : Int) : ℚ) := by exact_mod_cast hlt
      push_cast at h2
      linarith
  · unfold manifestMirrorStale secsSinceUpdate
    rw [decide_eq_true_iff, gt_iff_lt, lt_div_iff₀ (by norm_num : (0:ℚ) < 1000)]
    have h2 : (0 : ℚ) ≤ (nowMs : ℚ) := by exact_mod_cast hnow
    linarith
  · unfold manifestMirrorStale secsSinceUpdate
    rw [decide_eq_true_iff, gt_iff_lt, lt_div_iff₀ (by norm_num : (0:ℚ) < 1000)]
    push_cast
    linarith
  · unfold manifestMirrorStale secsSinceUpdate
    rw [decide_eq_false_iff_not]
    rw [gt_iff_lt, lt_div_iff₀ (by norm_num : (0:ℚ) < 1000)]
    push_cast
    intro hc
    linarith

/-- **C5** (witness): the TTL decision evaluated on concrete clocks — no
timestamp is stale, 150 s ago is stale, 30 s ago is fresh. -/
theorem claim5_witness :
    manifestMirrorStale 1000000 none = true
  ∧ manifestMirrorStale (0 + 150000) (some 0) = true
  ∧ manifestMirrorStale (0 + 30000) (some 0) = false :=
  ⟨(claim5_ttl_staleness 1000000 0 (by norm_num)).2.1,
   (claim5_ttl_staleness 1000000 0 (by norm_num)).2.2.1,
   (claim5_ttl_staleness 1000000 0 (by norm_num)).2.2.2⟩

end CyberGIS

namespace CyberGIS

/-! ## The stateful refresh pipeline (claims C4, C8, C9, C10)

The effectful `GitUtil` pipeline is embedded as explicit state passing.
`Env` fixes the behavior of the external collaborators during a call (the
remote head, whether a clone succeeds and what it puts on disk, whether
the incremental checkout/pull succeeds and what it puts on disk, the
clock).  `St` is the mutable world: the local mirror directory, the
process-wide manifest cache, and the persisted `updatedAt` timestamp.
Every operation returns its result together with the final state and the
list of observable actions it performed. -/

/-- A repository handle (`Git` entity): id, address, optional pinned
revision. -/
structure GitH where
  id : String
  address : String
  sha : Option String
deriving DecidableEq, Repr

/-- The state of the local mirror directory: the revision `log` reports,
and what reading `manifest.json` yields — `none` when the read throws,
`some none` when it reads text that `JSON.parse` rejects, `some (some m)`
when it parses to `m`. -/
structure Disk where
  sha : String
  manifest : Option (Option RawManifest)
deriving DecidableEq, Repr

/-- Observable actions of the pipeline. -/
inductive Ev where
  | removeZip | rimrafEv | cloneEv | checkoutEv | pullEv | fetchEv | logEv
  | dbUpdateEv | readEv | cacheReadEv | cacheWriteEv
deriving DecidableEq, Repr

/-- Errors surfaced to the caller. -/
inductive GErr where
  | cloneFailed | readFailed | parseFailed
deriving DecidableEq, Repr

deriving instance DecidableEq for Except

/-- Behavior of the external collaborators during one call. -/
structure Env where
  head : Option String
  cloneOk : Bool
  cloneDisk : Disk
  incrementalOk : Bool
  pulledDisk : Disk
  nowMs : Int
deriving DecidableEq, Repr

/-- The mutable world: local mirror, in-process manifest cache
(`GitUtil.cache`, most recent entry first), persisted `updatedAt`. -/
structure St where
  disk : Option Disk
  cache : List (String × RawManifest)
  updatedAt : Option Int
deriving DecidableEq, Repr

/-- Lookup in the in-process cache. -/
def lookupCache (c : List (String × RawManifest)) (gid : String) :
    Option RawManifest :=
  match c with
  | [] => none
  | (k, v) :: t => if k == gid then some v else lookupCache t gid

/-- The actions of a successful `deleteAndPull`: delete, clone, and a
checkout when a pinned revision is set. -/
def dpEvs (git : GitH) : List Ev :=
  [Ev.rimrafEv, Ev.cloneEv] ++ (if tstr git.sha then [Ev.checkoutEv] else [])

/-- `GitUtil.deleteAndPull`: delete the local directory and clone afresh,
checking out the pinned revision when one is set; on failure no valid
mirror remains. -/
def deleteAndPull (env : Env) (git : GitH) (st : St) :
    Except GErr Unit × St × List Ev :=
  if env.cloneOk then
    (Except.ok (), { st with disk := some env.cloneDisk }, dpEvs git)
  else
    (Except.error GErr.cloneFailed, { st with disk := none },
      [Ev.rimrafEv, Ev.cloneEv])

/-- The actions of the staleness check: remove leftover archives, fetch,
and (when the remote reports a head) read the local log. -/
def fevs (env : Env) : List Ev :=
  [Ev.removeZip, Ev.fetchEv] ++ (if env.head.isSome then [Ev.logEv] else [])

/-- The incremental update action: checkout when a pinned revision is
set, pull otherwise. -/
def opEv (git : GitH) : Ev :=
  if tstr git.sha then Ev.checkoutEv else Ev.pullEv

/-- `GitUtil.refreshGit`: clone when the mirror is missing; otherwise run
the staleness check and, when stale, try the incremental checkout/pull,
falling back to `deleteAndPull` on failure, then record the sync
timestamp; when fresh, do nothing and report that no refresh happened. -/
def refreshGit (env : Env) (git : GitH) (st : St) :
    Except GErr Bool × St × List Ev :=
  match st.disk with
  | none =>
    match deleteAndPull env git st with
    | (Except.ok _, st1, evs) => (Except.ok true, st1, Ev.removeZip :: evs)
    | (Except.error e, st1, evs) => (Except.error e, st1, Ev.removeZip :: evs)
  | some d =>
    if outOfDate git.sha env.head d.sha then
      if env.incrementalOk then
        (Except.ok true,
          { st with disk := some env.pulledDisk, updatedAt := some env.nowMs },
          fevs env ++ [opEv git, Ev.dbUpdateEv])
      else
        match deleteAndPull env git st with
        | (Except.ok _, st1, evs) =>
          (Except.ok true, { st1 with updatedAt := some env.nowMs },
            fevs env ++ opEv git :: (evs ++ [Ev.dbUpdateEv]))
        | (Except.error e, st1, evs) =>
          (Except.error e, st1, fevs env ++ opEv git :: evs)
    else
      (Except.ok false, st, fevs env)

/-- Reading `manifest.json` from the current mirror. -/
def readDisk (st : St) : Option (Option RawManifest) :=
  match st.disk with
  | none => none
  | some d => d.manifest

/-- The tail of `getExecutableManifest` once raw manifest content is in
hand: parse (may fail), normalize, and store in the cache. -/
def finishManifest (git : GitH) (st : St) (evs : List Ev)
    (doc : Option RawManifest) : Except GErr RawManifest × St × List Ev :=
  match doc with
  | none => (Except.error GErr.parseFailed, st, evs)
  | some m =>
    let result := processExecutableManifest specCatalog git.address m
    (Except.ok result, { st with cache := (git.id, result) :: st.cache },
      evs ++ [Ev.cacheWriteEv])

/-- The read phase of `getExecutableManifest`: read the manifest file,
and on failure `deleteAndPull` once and read again, surfacing the second
failure. -/
def readPhase (env : Env) (git : GitH) (st1 : St) (evs1 : List Ev) :
    Except GErr RawManifest × St × List Ev :=
  match readDisk st1 with
  | some doc => finishManifest git st1 (evs1 ++ [Ev.readEv]) doc
  | none =>
    match deleteAndPull env git st1 with
    | (Except.error e, st2, evs2) =>
      (Except.error e, st2, evs1 ++ [Ev.readEv] ++ evs2)
    | (Except.ok _, st2, evs2) =>
      match readDisk st2 with
      | some doc =>
        finishManifest git st2 (evs1 ++ [Ev.readEv] ++ evs2 ++ [Ev.readEv]) doc
      | none =>
        (Except.error GErr.readFailed, st2,
          evs1 ++ [Ev.readEv] ++ evs2 ++ [Ev.readEv])

/-- `GitUtil.getExecutableManifest`: refresh, serve from the cache when no
refresh happened and an entry exists, otherwise read and validate the
manifest and store it in the cache. -/
def getExecutableManifest (env : Env) (git : GitH) (st : St) :
    Except GErr RawManifest × St × List Ev :=
  match refreshGit env git st with
  | (Except.error e, st1, evs1) => (Except.error e, st1, evs1)
  | (Except.ok refreshed, st1, evs1) =>
    if refreshed then readPhase env git st1 evs1
    else
      match lookupCache st1.cache git.id with
      | some m => (Except.ok m, st1, evs1 ++ [Ev.cacheReadEv])
      | none => readPhase env git st1 evs1

theorem deleteAndPull_ok (env : Env) (git : GitH) (st : St)
    (h : env.cloneOk = true) :
    deleteAndPull env git st =
      (Except.ok (), { st with disk := some env.cloneDisk }, dpEvs git) := by
  simp [deleteAndPull, h]

theorem deleteAndPull_cache (env : Env) (git : GitH) (st : St) :
    (deleteAndPull env git st).2.1.cache = st.cache := by
  unfold deleteAndPull
  split <;> rfl

theorem refreshGit_missing (env : Env) (git : GitH) (st : St)
    (hmiss : st.disk = none) (hclone : env.cloneOk = true) :
    refreshGit env git st =
      (Except.ok true, { st with disk := some env.cloneDisk },
        Ev.removeZip :: dpEvs git) := by
  unfold refreshGit
  rw [hmiss, deleteAndPull_ok env git st hclone]

end CyberGIS

namespace CyberGIS

/-- Complete case characterization of `refreshGit`. -/
theorem refreshGit_cases (env : Env) (git : GitH) (st : St) :
    (st.disk = none ∧ env.cloneOk = true ∧
      refreshGit env git st = (Except.ok true,
        { st with disk := some env.cloneDisk }, Ev.removeZip :: dpEvs git))
  ∨ (st.disk = none ∧ env.cloneOk = false ∧
      refreshGit env git st = (Except.error GErr.cloneFailed,
        { st with disk := none }, [Ev.removeZip, Ev.rimrafEv, Ev.cloneEv]))
  ∨ (∃ d, st.disk = some d ∧ outOfDate git.sha env.head d.sha = false ∧
      refreshGit env git st = (Except.ok false, st, fevs env))
  ∨ (∃ d, st.disk = some d ∧ outOfDate git.sha env.head d.sha = true ∧
      env.incrementalOk = true ∧
      refreshGit env git st = (Except.ok true,
        { st with disk := some env.pulledDisk, updatedAt := some env.nowMs },
        fevs env ++ [opEv git, Ev.dbUpdateEv]))
  ∨ (∃ d, st.disk = some d ∧ outOfDate git.sha env.head d.sha = true ∧
      env.incrementalOk = false ∧ env.cloneOk = true ∧
      refreshGit env git st = (Except.ok true,
        { st with disk := some env.cloneDisk, updatedAt := some env.nowMs },
        fevs env ++ opEv git :: (dpEvs git ++ [Ev.dbUpdateEv])))
  ∨ (∃ d, st.disk = some d ∧ outOfDate git.sha env.head d.sha = true ∧
      env.incrementalOk = false ∧ env.cloneOk = false ∧
      refreshGit env git st = (Except.error GErr.cloneFailed,
        { st with disk := none }, fevs env ++ opEv git :: [Ev.rimrafEv, Ev.cloneEv])) := by
  rcases hd : st.disk with _ | d
  · by_cases hc : env.cloneOk
    · refine Or.inl ⟨rfl, hc, ?_⟩
      unfold refreshGit
      rw [hd, deleteAndPull_ok env git st hc]
    · have hc2 : env.cloneOk = false := by simpa using hc
      refine Or.inr (Or.inl ⟨rfl, hc2, ?_⟩)
      unfold refreshGit deleteAndPull
      rw [hd, hc2]
      simp
  · by_cases ho : outOfDate git.sha env.head d.sha
    · by_cases hi : env.incrementalOk
      · refine Or.inr (Or.inr (Or.inr (Or.inl ⟨d, rfl, ho, hi, ?_⟩)))
        unfold refreshGit
        rw [hd]
        simp only [ho, hi, if_true]
      · have hi2 : env.incrementalOk = false := by simpa using hi
        by_cases hc : env.cloneOk
        · refine Or.inr (Or.inr (Or.inr (Or.inr (Or.inl ⟨d, rfl, ho, hi2, hc, ?_⟩))))
          unfold refreshGit
          rw [hd]
          simp only [ho, hi2, Bool.false_eq_true, if_false, if_true,
            deleteAndPull_ok env git st hc]
        · have hc2 : env.cloneOk = false := by simpa using hc
          refine Or.inr (Or.inr (Or.inr (Or.inr (Or.inr ⟨d, rfl, ho, hi2, hc2, ?_⟩))))
          unfold refreshGit deleteAndPull
          rw [hd, hc2]
          simp only [ho, hi2, Bool.false_eq_true, if_false, if_true]
    · have ho2 : outOfDate git.sha env.head d.sha = false := by simpa using ho
      refine Or.inr (Or.inr (Or.inl ⟨d, rfl, ho2, ?_⟩))
      unfold refreshGit
      rw [hd]
      simp only [ho2, Bool.false_eq_true, if_false]

end CyberGIS

namespace CyberGIS

theorem deleteAndPull_fail (env : Env) (git : GitH) (st : St)
    (h : env.cloneOk = false) :
    deleteAndPull env git st = (Except.error GErr.cloneFailed,
      { st with disk := none }, [Ev.rimrafEv, Ev.cloneEv]) := by
  simp [deleteAndPull, h]

theorem refreshGit_cache (env : Env) (git : GitH) (st : St) :
    (refreshGit env git st).2.1.cache = st.cache := by
  rcases refreshGit_cases env git st with
    ⟨_, _, h⟩ | ⟨_, _, h⟩ | ⟨d, _, _, h⟩ | ⟨d, _, _, _, h⟩ |
    ⟨d, _, _, _, _, h⟩ | ⟨d, _, _, _, _, h⟩ <;> rw [h]

@[simp]
theorem readDisk_update (st : St) (d : Disk) :
    readDisk { st with disk := some d } = d.manifest := rfl

/-- Complete case characterization of `readPhase`. -/
theorem readPhase_cases (env : Env) (git : GitH) (st1 : St) (evs1 : List Ev) :
    (∃ doc, readDisk st1 = some (some doc) ∧
      readPhase env git st1 evs1 =
        (Except.ok (processExecutableManifest specCatalog git.address doc),
          { st1 with cache :=
              (git.id, processExecutableManifest specCatalog git.address doc) :: st1.cache },
          evs1 ++ [Ev.readEv] ++ [Ev.cacheWriteEv]))
  ∨ (readDisk st1 = some none ∧
      readPhase env git st1 evs1 =
        (Except.error GErr.parseFailed, st1, evs1 ++ [Ev.readEv]))
  ∨ (readDisk st1 = none ∧ env.cloneOk = false ∧
      readPhase env git st1 evs1 =
        (Except.error GErr.cloneFailed, { st1 with disk := none },
          evs1 ++ [Ev.readEv] ++ [Ev.rimrafEv, Ev.cloneEv]))
  ∨ (readDisk st1 = none ∧ env.cloneOk = true ∧ env.cloneDisk.manifest = none ∧
      readPhase env git st1 evs1 =
        (Except.error GErr.readFailed, { st1 with disk := some env.cloneDisk },
          evs1 ++ [Ev.readEv] ++ dpEvs git ++ [Ev.readEv]))
  ∨ (∃ doc, readDisk st1 = none ∧ env.cloneOk = true ∧
      env.cloneDisk.manifest = some (some doc) ∧
      readPhase env git st1 evs1 =
        (Except.ok (processExecutableManifest specCatalog git.address doc),
          { st1 with disk := some env.cloneDisk, cache :=
              (git.id, processExecutableManifest specCatalog git.address doc) :: st1.cache },
          evs1 ++ [Ev.readEv] ++ dpEvs git ++ [Ev.readEv] ++ [Ev.cacheWriteEv]))
  ∨ (readDisk st1 = none ∧ env.cloneOk = true ∧ env.cloneDisk.manifest = some none ∧
      readPhase env git st1 evs1 =
        (Except.error GErr.parseFailed, { st1 with disk := some env.cloneDisk },
          evs1 ++ [Ev.readEv] ++ dpEvs git ++ [Ev.readEv])) := by
  rcases hr : readDisk st1 with _ | doc
  · by_cases hc : env.cloneOk
    · rcases hm : env.cloneDisk.manifest with _ | doc2
      · refine Or.inr (Or.inr (Or.inr (Or.inl ⟨rfl, hc, rfl, ?_⟩)))
        unfold readPhase
        rw [hr, deleteAndPull_ok env git st1 hc]
        simp only [readDisk_update, hm]
      · rcases doc2 with _ | m
        · refine Or.inr (Or.inr (Or.inr (Or.inr (Or.inr ⟨rfl, hc, rfl, ?_⟩))))
          unfold readPhase
          rw [hr, deleteAndPull_ok env git st1 hc]
          simp only [readDisk_update, hm]
          rfl
        · refine Or.inr (Or.inr (Or.inr (Or.inr (Or.inl ⟨m, rfl, hc, rfl, ?_⟩))))
          unfold readPhase
          rw [hr, deleteAndPull_ok env git st1 hc]
          simp only [readDisk_update, hm]
          simp [finishManifest]
    · have hc2 : env.cloneOk = false := by simpa using hc
      refine Or.inr (Or.inr (Or.inl ⟨rfl, hc2, ?_⟩))
      unfold readPhase
      rw [hr, deleteAndPull_fail env git st1 hc2]
  · rcases doc with _ | m
    · refine Or.inr (Or.inl ⟨rfl, ?_⟩)
      unfold readPhase
      rw [hr]
      rfl
    · refine Or.inl ⟨m, rfl, ?_⟩
      unfold readPhase
      rw [hr]
      simp [finishManifest]

theorem readPhase_error_cache (env : Env) (git : GitH) (st1 : St)
    (evs1 : List Ev) (e : GErr)
    (h : (readPhase env git st1 evs1).1 = Except.error e) :
    (readPhase env git st1 evs1).2.1.cache = st1.cache := by
  rcases readPhase_cases env git st1 evs1 with
    ⟨doc, _, hp⟩ | ⟨_, hp⟩ | ⟨_, _, hp⟩ | ⟨_, _, _, hp⟩ |
    ⟨doc, _, _, _, hp⟩ | ⟨_, _, _, hp⟩ <;>
    rw [hp] at h ⊢ <;>
    first
    | rfl
    | exact absurd h (by simp)

/-! ## Claim C9 -/

/-- **C9** (amended): a refresh that starts with no local mirror performs
the full clone (with checkout of the pinned revision when set) and
returns "refreshed" with the mirror in place — but the sync timestamp is
*not* recorded in this branch: `updatedAt` is unchanged and no database
update appears in the action trace.  The timestamp is recorded only on
the stale-update branch. -/
theorem claim9_missing_no_timestamp (env : Env) (git : GitH) (st : St)
    (hmiss : st.disk = none) (hclone : env.cloneOk = true) :
    refreshGit env git st =
      (Except.ok true, { st with disk := some env.cloneDisk },
        Ev.removeZip :: dpEvs git)
  ∧ ({ st with disk := some env.cloneDisk } : St).updatedAt = st.updatedAt
  ∧ Ev.dbUpdateEv ∉ (Ev.removeZip :: dpEvs git) := by
  refine ⟨refreshGit_missing env git st hmiss hclone, rfl, ?_⟩
  unfold dpEvs
  by_cases h : tstr git.sha <;> simp [h]

/-- **C9** (witness): the amended claim evaluated on a concrete handle
with a pinned revision and an initially missing mirror. -/
theorem claim9_witness :
    refreshGit
        { head := some "h", cloneOk := true, cloneDisk := { sha := "s", manifest := none },
          incrementalOk := true, pulledDisk := { sha := "s", manifest := none }, nowMs := 7 }
        { id := "g", address := "a", sha := some "s" }
        { disk := none, cache := [], updatedAt := none } =
      (Except.ok true,
        { disk := some { sha := "s", manifest := none }, cache := [], updatedAt := none },
        Ev.removeZip :: dpEvs { id := "g", address := "a", sha := some "s" }) :=
  (claim9_missing_no_timestamp
    { head := some "h", cloneOk := true, cloneDisk := { sha := "s", manifest := none },
      incrementalOk := true, pulledDisk := { sha := "s", manifest := none }, nowMs := 7 }
    { id := "g", address := "a", sha := some "s" }
    { disk := none, cache := [], updatedAt := none } rfl rfl).1

/-- **C9** (counterexample): starting from the Missing state with a
successful clone, the refresh returns success with `updatedAt` still
unset and no database update in its action trace — the sync timestamp is
not recorded, refuting the claim. -/
theorem claim9_counterexample :
    (refreshGit
      { head := some "h", cloneOk := true, cloneDisk := { sha := "s", manifest := none },
        incrementalOk := true, pulledDisk := { sha := "s", manifest := none }, nowMs := 7 }
      { id := "g", address := "a", sha := none }
      { disk := none, cache := [], updatedAt := none }).1 = Except.ok true
  ∧ (refreshGit
      { head := some "h", cloneOk := true, cloneDisk := { sha := "s", manifest := none },
        incrementalOk := true, pulledDisk := { sha := "s", manifest := none }, nowMs := 7 }
      { id := "g", address := "a", sha := none }
      { disk := none, cache := [], updatedAt := none }).2.1.updatedAt = none
  ∧ Ev.dbUpdateEv ∉ (refreshGit
      { head := some "h", cloneOk := true, cloneDisk := { sha := "s", manifest := none },
        incrementalOk := true, pulledDisk := { sha := "s", manifest := none }, nowMs := 7 }
      { id := "g", address := "a", sha := none }
      { disk := none, cache := [], updatedAt := none }).2.2 := by
  decide

/-! ## Claim C10 -/

theorem getExec_refresh_error (env : Env) (git : GitH) (st : St) (e : GErr)
    (st1 : St) (evs1 : List Ev)
    (hrg : refreshGit env git st = (Except.error e, st1, evs1)) :
    getExecutableManifest env git st = (Except.error e, st1, evs1) := by
  unfold getExecutableManifest
  rw [hrg]

theorem getExec_refresh_true (env : Env) (git : GitH) (st : St)
    (st1 : St) (evs1 : List Ev)
    (hrg : refreshGit env git st = (Except.ok true, st1, evs1)) :
    getExecutableManifest env git st = readPhase env git st1 evs1 := by
  unfold getExecutableManifest
  rw [hrg]
  rfl

theorem getExec_refresh_false_hit (env : Env) (git : GitH) (st : St)
    (st1 : St) (evs1 : List Ev) (m : RawManifest)
    (hrg : refreshGit env git st = (Except.ok false, st1, evs1))
    (hlk : lookupCache st1.cache git.id = some m) :
    getExecutableManifest env git st =
      (Except.ok m, st1, evs1 ++ [Ev.cacheReadEv]) := by
  unfold getExecutableManifest
  rw [hrg]
  show (match lookupCache st1.cache git.id with
    | some m => (Except.ok m, st1, evs1 ++ [Ev.cacheReadEv])
    | none => readPhase env git st1 evs1) =
      (Except.ok m, st1, evs1 ++ [Ev.cacheReadEv])
  rw [hlk]

theorem getExec_refresh_false_miss (env : Env) (git : GitH) (st : St)
    (st1 : St) (evs1 : List Ev)
    (hrg : refreshGit env git st = (Except.ok false, st1, evs1))
    (hlk : lookupCache st1.cache git.id = none) :
    getExecutableManifest env git st = readPhase env git st1 evs1 := by
  unfold getExecutableManifest
  rw [hrg]
  show (match lookupCache st1.cache git.id with
    | some m => (Except.ok m, st1, evs1 ++ [Ev.cacheReadEv])
    | none => readPhase env git st1 evs1) = readPhase env git st1 evs1
  rw [hlk]

/-- **C10**: when `getExecutableManifest` fails with a parse error (the
mirror was refreshed and re-read, but parsing/normalizing the manifest
text threw), the in-process cache is left exactly as before the call —
the error is raised before the cache write — so any previously cached
manifest for the repository id remains stored and retrievable. -/
theorem claim10_cache_on_parse_error (env : Env) (git : GitH) (st : St)
    (h : (getExecutableManifest env git st).1 = Except.error GErr.parseFailed) :
    (getExecutableManifest env git st).2.1.cache = st.cache
  ∧ lookupCache (getExecutableManifest env git st).2.1.cache git.id
      = lookupCache st.cache git.id := by
  have hcache : (getExecutableManifest env git st).2.1.cache = st.cache := by
    have hrc := refreshGit_cache env git st
    rcases hrg : refreshGit env git st with ⟨er | b, st1, evs1⟩
    · rw [hrg] at hrc
      rw [getExec_refresh_error env git st er st1 evs1 hrg]
      exact hrc
    · rw [hrg] at hrc
      have hc1 : st1.cache = st.cache := hrc
      rcases b with _ | _
      · rcases hlk : lookupCache st1.cache git.id with _ | m
        · rw [getExec_refresh_false_miss env git st st1 evs1 hrg hlk] at h ⊢
          rw [readPhase_error_cache env git st1 evs1 GErr.parseFailed h]
          exact hc1
        · rw [getExec_refresh_false_hit env git st st1 evs1 m hrg hlk] at h
          exact absurd h (by simp)
      · rw [getExec_refresh_true env git st st1 evs1 hrg] at h ⊢
        rw [readPhase_error_cache env git st1 evs1 GErr.parseFailed h]
        exact hc1
  exact ⟨hcache, by rw [hcache]⟩

/-- **C10** (witness): a concrete run in which the freshly cloned mirror
holds unparsable manifest text while an older entry for the repository is
cached: the call fails with a parse error and the cache entry survives. -/
theorem claim10_witness :
    (getExecutableManifest
      { head := some "h", cloneOk := true,
        cloneDisk := { sha := "h", manifest := some none },
        incrementalOk := true, pulledDisk := { sha := "h", manifest := some none },
        nowMs := 7 }
      { id := "g", address := "a", sha := none }
      { disk := none, cache := [("g", {})], updatedAt := none }).2.1.cache
      = [("g", ({} : RawManifest))] :=
  (claim10_cache_on_parse_error
    { head := some "h", cloneOk := true,
      cloneDisk := { sha := "h", manifest := some none },
      incrementalOk := true, pulledDisk := { sha := "h", manifest := some none },
      nowMs := 7 }
    { id := "g", address := "a", sha := none }
    { disk := none, cache := [("g", {})], updatedAt := none } (by decide)).1

end CyberGIS

namespace CyberGIS

/-! ## Claim C4 -/

/-- **C4**: when the manifest read fails after the mirror was brought to
the Fresh state (and the recovery clone itself succeeds), the pipeline
performs destroy-and-recreate exactly once and retries the read exactly
once: whatever the second read yields, the action trace extends the
refresh trace by exactly one read, one destroy-and-recreate, and a second
read (followed only by the parse/cache-write tail on success) — one
delete, one clone and two reads in total.  When the second read also
fails, the caller receives the read error and the local directory is left
in the post-recreate state, not deleted again. -/
theorem claim4_read_retry (env : Env) (git : GitH) (st : St) (b : Bool)
    (st1 : St) (evs1 : List Ev)
    (hrefresh : refreshGit env git st = (Except.ok b, st1, evs1))
    (hpath : b = true ∨ lookupCache st1.cache git.id = none)
    (hread1 : readDisk st1 = none)
    (hclone : env.cloneOk = true) :
    (env.cloneDisk.manifest = none →
      getExecutableManifest env git st =
        (Except.error GErr.readFailed, { st1 with disk := some env.cloneDisk },
          evs1 ++ [Ev.readEv] ++ dpEvs git ++ [Ev.readEv]))
  ∧ (∀ doc, env.cloneDisk.manifest = some doc →
      getExecutableManifest env git st =
        finishManifest git { st1 with disk := some env.cloneDisk }
          (evs1 ++ [Ev.readEv] ++ dpEvs git ++ [Ev.readEv]) doc)
  ∧ ([Ev.readEv] ++ dpEvs git ++ [Ev.readEv]).count Ev.rimrafEv = 1
  ∧ ([Ev.readEv] ++ dpEvs git ++ [Ev.readEv]).count Ev.cloneEv = 1
  ∧ ([Ev.readEv] ++ dpEvs git ++ [Ev.readEv]).count Ev.readEv = 2 := by
  have hget : getExecutableManifest env git st = readPhase env git st1 evs1 := by
    rcases hpath with hb | hlk
    · subst hb
      exact getExec_refresh_true env git st st1 evs1 hrefresh
    · rcases b with _ | _
      · exact getExec_refresh_false_miss env git st st1 evs1 hrefresh hlk
      · exact getExec_refresh_true env git st st1 evs1 hrefresh
  refine ⟨?_, ?_, ?_, ?_, ?_⟩
  · intro h2
    rw [hget]
    unfold readPhase
    rw [hread1, deleteAndPull_ok env git st1 hclone]
    simp only [readDisk_update, h2]
  · intro doc h2
    rw [hget]
    unfold readPhase
    rw [hread1, deleteAndPull_ok env git st1 hclone]
    simp only [readDisk_update, h2]
  all_goals
    by_cases h : tstr git.sha
    · simp only [dpEvs, h, eq_self_iff_true, if_true]
      decide
    · simp only [dpEvs, h, Bool.false_eq_true, if_false]
      decide

/-- **C4** (witness): a concrete run — stale mirror updated by pull to a
revision whose manifest file is unreadable, recovery clone also yields an
unreadable manifest — surfaces the read error after one destroy and two
reads. -/
theorem claim4_witness :
    getExecutableManifest
        { head := some "h2", cloneOk := true,
          cloneDisk := { sha := "h2", manifest := none },
          incrementalOk := true, pulledDisk := { sha := "h2", manifest := none },
          nowMs := 42 }
        { id := "g", address := "a", sha := none }
        { disk := some { sha := "h", manifest := some (some {}) }, cache := [],
          updatedAt := none } =
      (Except.error GErr.readFailed,
        { disk := some { sha := "h2", manifest := none }, cache := [],
          updatedAt := some 42 },
        [Ev.removeZip, Ev.fetchEv, Ev.logEv, Ev.pullEv, Ev.dbUpdateEv] ++
          [Ev.readEv] ++ dpEvs { id := "g", address := "a", sha := none } ++
          [Ev.readEv]) :=
  (claim4_read_retry
    { head := some "h2", cloneOk := true,
      cloneDisk := { sha := "h2", manifest := none },
      incrementalOk := true, pulledDisk := { sha := "h2", manifest := none },
      nowMs := 42 }
    { id := "g", address := "a", sha := none }
    { disk := some { sha := "h", manifest := some (some {}) }, cache := [],
      updatedAt := none }
    true
    { disk := some { sha := "h2", manifest := none }, cache := [],
      updatedAt := some 42 }
    [Ev.removeZip, Ev.fetchEv, Ev.logEv, Ev.pullEv, Ev.dbUpdateEv]
    (by decide) (Or.inl rfl) (by decide) rfl).1 rfl

end CyberGIS

namespace CyberGIS

/-! ## Claim C8 -/

theorem lookupCache_cons_self (c : List (String × RawManifest))
    (gid : String) (v : RawManifest) :
    lookupCache ((gid, v) :: c) gid = some v := by
  simp [lookupCache]

theorem outOfDate_no_sha (sha : Option String) (h1 s : String)
    (hsha : tstr sha = false) :
    outOfDate sha (some h1) s = (h1 != s) := by
  simp [outOfDate, hsha]

theorem refreshGit_fresh (env : Env) (git : GitH) (st : St) (d : Disk)
    (hd : st.disk = some d)
    (ho : outOfDate git.sha env.head d.sha = false) :
    refreshGit env git st = (Except.ok false, st, fevs env) := by
  unfold refreshGit
  rw [hd]
  simp only [ho, Bool.false_eq_true, if_false]

theorem fevs_some (env : Env) (h1 : String) (hh : env.head = some h1) :
    fevs env = [Ev.removeZip, Ev.fetchEv, Ev.logEv] := by
  simp [fevs, hh]

/-- A successful `readPhase` leaves the produced manifest as the most
recent cache entry, and the mirror either untouched or freshly
recreated. -/
theorem readPhase_ok_post (env : Env) (git : GitH) (st1 : St)
    (evs1 : List Ev) (m : RawManifest)
    (hok : (readPhase env git st1 evs1).1 = Except.ok m) :
    lookupCache (readPhase env git st1 evs1).2.1.cache git.id = some m
  ∧ ((readPhase env git st1 evs1).2.1.disk = st1.disk
     ∨ (readPhase env git st1 evs1).2.1.disk = some env.cloneDisk) := by
  rcases readPhase_cases env git st1 evs1 with
    ⟨doc, _, hp⟩ | ⟨_, hp⟩ | ⟨_, _, hp⟩ | ⟨_, _, _, hp⟩ |
    ⟨doc, _, _, _, hp⟩ | ⟨_, _, _, hp⟩ <;> rw [hp] at hok ⊢
  · have hm : processExecutableManifest specCatalog git.address doc = m := by
      simpa using hok
    rw [← hm]
    exact ⟨lookupCache_cons_self _ _ _, Or.inl rfl⟩
  · exact absurd hok (by simp)
  · exact absurd hok (by simp)
  · exact absurd hok (by simp)
  · have hm : processExecutableManifest specCatalog git.address doc = m := by
      simpa using hok
    rw [← hm]
    exact ⟨lookupCache_cons_self _ _ _, Or.inr rfl⟩
  · exact absurd hok (by simp)

/-- A successful `getExecutableManifest` leaves its result retrievable
from the cache, and — for a handle with no pinned revision against a
remote whose head is `h1` and whose clone/pull operations bring the local
revision to `h1` — leaves the mirror at revision `h1`. -/
theorem getExec_ok_post (env : Env) (git : GitH) (st : St) (m : RawManifest)
    (h1 : String)
    (hsha : tstr git.sha = false)
    (hhead : env.head = some h1)
    (hcd : env.cloneDisk.sha = h1)
    (hpd : env.pulledDisk.sha = h1)
    (hok : (getExecutableManifest env git st).1 = Except.ok m) :
    lookupCache (getExecutableManifest env git st).2.1.cache git.id = some m
  ∧ ∃ d, (getExecutableManifest env git st).2.1.disk = some d ∧ d.sha = h1 := by
  rcases refreshGit_cases env git st with
    ⟨_, _, hrg⟩ | ⟨_, _, hrg⟩ | ⟨d, hd, ho, hrg⟩ | ⟨d, _, _, _, hrg⟩ |
    ⟨d, _, _, _, _, hrg⟩ | ⟨d, _, _, _, _, hrg⟩
  · rw [getExec_refresh_true env git st _ _ hrg] at hok ⊢
    obtain ⟨hl, hdisk⟩ := readPhase_ok_post env git _ _ m hok
    refine ⟨hl, ?_⟩
    rcases hdisk with hdk | hdk <;> rw [hdk]
    · exact ⟨env.cloneDisk, rfl, hcd⟩
    · exact ⟨env.cloneDisk, rfl, hcd⟩
  · rw [getExec_refresh_error env git st _ _ _ hrg] at hok
    exact absurd hok (by simp)
  · have hdsha : d.sha = h1 := by
      rw [hhead, outOfDate_no_sha git.sha h1 d.sha hsha] at ho
      have h2 : h1 = d.sha := by simpa using ho
      exact h2.symm
    rcases hlk : lookupCache st.cache git.id with _ | m0
    · rw [getExec_refresh_false_miss env git st _ _ hrg hlk] at hok ⊢
      obtain ⟨hl, hdisk⟩ := readPhase_ok_post env git _ _ m hok
      refine ⟨hl, ?_⟩
      rcases hdisk with hdk | hdk <;> rw [hdk]
      · exact ⟨d, hd, hdsha⟩
      · exact ⟨env.cloneDisk, rfl, hcd⟩
    · rw [getExec_refresh_false_hit env git st _ _ m0 hrg hlk] at hok ⊢
      have hm : m0 = m := by simpa using hok
      subst hm
      exact ⟨hlk, d, hd, hdsha⟩
  · rw [getExec_refresh_true env git st _ _ hrg] at hok ⊢
    obtain ⟨hl, hdisk⟩ := readPhase_ok_post env git _ _ m hok
    refine ⟨hl, ?_⟩
    rcases hdisk with hdk | hdk <;> rw [hdk]
    · exact ⟨env.pulledDisk, rfl, hpd⟩
    · exact ⟨env.cloneDisk, rfl, hcd⟩
  · rw [getExec_refresh_true env git st _ _ hrg] at hok ⊢
    obtain ⟨hl, hdisk⟩ := readPhase_ok_post env git _ _ m hok
    refine ⟨hl, ?_⟩
    rcases hdisk with hdk | hdk <;> rw [hdk]
    · exact ⟨env.cloneDisk, rfl, hcd⟩
    · exact ⟨env.cloneDisk, rfl, hcd⟩
  · rw [getExec_refresh_error env git st _ _ _ hrg] at hok
    exact absurd hok (by simp)

theorem cacheRead_notin_dpEvs (git : GitH) : Ev.cacheReadEv ∉ dpEvs git := by
  unfold dpEvs
  by_cases h : tstr git.sha <;> simp [h]

theorem cacheRead_notin_fevs (env : Env) : Ev.cacheReadEv ∉ fevs env := by
  unfold fevs
  by_cases h : env.head.isSome <;> simp [h]

theorem refreshGit_no_cacheRead (env : Env) (git : GitH) (st : St) :
    Ev.cacheReadEv ∉ (refreshGit env git st).2.2 := by
  have hdp := cacheRead_notin_dpEvs git
  have hfv := cacheRead_notin_fevs env
  have hop : Ev.cacheReadEv ≠ opEv git := by
    unfold opEv
    by_cases h : tstr git.sha <;> simp [h]
  rcases refreshGit_cases env git st with
    ⟨_, _, hrg⟩ | ⟨_, _, hrg⟩ | ⟨d, _, _, hrg⟩ | ⟨d, _, _, _, hrg⟩ |
    ⟨d, _, _, _, _, hrg⟩ | ⟨d, _, _, _, _, hrg⟩ <;> rw [hrg] <;>
    simp_all [List.mem_append]

theorem readPhase_no_cacheRead (env : Env) (git : GitH) (st1 : St)
    (evs1 : List Ev) (h1 : Ev.cacheReadEv ∉ evs1) :
    Ev.cacheReadEv ∉ (readPhase env git st1 evs1).2.2 := by
  have hdp := cacheRead_notin_dpEvs git
  rcases readPhase_cases env git st1 evs1 with
    ⟨doc, _, hp⟩ | ⟨_, hp⟩ | ⟨_, _, hp⟩ | ⟨_, _, _, hp⟩ |
    ⟨doc, _, _, _, hp⟩ | ⟨_, _, _, hp⟩ <;> rw [hp] <;>
    simp_all [List.mem_append]

/-- **C8**: with no pinned revision and the remote head unchanged (same
environment, clone and pull both landing on head `h1`), a second
`getExecutableManifest` call after a successful first one performs no
mirror mutation — its trace is exactly remove-archive, fetch, log, cache
read — leaves the state untouched, and returns the first call's manifest
from the cache.  Moreover the cache-read action only ever occurs on runs
whose refresh step reported that no refresh was necessary. -/
theorem claim8_cache_reuse (env : Env) (git : GitH) (st : St)
    (m : RawManifest) (h1 : String)
    (hsha : tstr git.sha = false)
    (hhead : env.head = some h1)
    (hcd : env.cloneDisk.sha = h1)
    (hpd : env.pulledDisk.sha = h1)
    (hfirst : (getExecutableManifest env git st).1 = Except.ok m) :
    getExecutableManifest env git ((getExecutableManifest env git st).2.1)
      = (Except.ok m, (getExecutableManifest env git st).2.1,
          [Ev.removeZip, Ev.fetchEv, Ev.logEv, Ev.cacheReadEv])
  ∧ (∀ env2 git2 st2,
      Ev.cacheReadEv ∈ (getExecutableManifest env2 git2 st2).2.2 →
      (refreshGit env2 git2 st2).1 = Except.ok false) := by
  constructor
  · obtain ⟨hl, d, hd, hdsha⟩ :=
      getExec_ok_post env git st m h1 hsha hhead hcd hpd hfirst
    have ho : outOfDate git.sha env.head d.sha = false := by
      rw [hhead, outOfDate_no_sha git.sha h1 d.sha hsha, hdsha]
      simp
    have hrg2 := refreshGit_fresh env git
      ((getExecutableManifest env git st).2.1) d hd ho
    have hhit := getExec_refresh_false_hit env git
      ((getExecutableManifest env git st).2.1)
      ((getExecutableManifest env git st).2.1) (fevs env) m hrg2 hl
    rw [hhit, fevs_some env h1 hhead]
    rfl
  · intro env2 git2 st2 hmem
    rcases hrg : refreshGit env2 git2 st2 with ⟨er | b, st3, evs3⟩
    · rw [getExec_refresh_error env2 git2 st2 _ _ _ hrg] at hmem
      have := refreshGit_no_cacheRead env2 git2 st2
      rw [hrg] at this
      exact absurd hmem this
    · have hnev : Ev.cacheReadEv ∉ evs3 := by
        have := refreshGit_no_cacheRead env2 git2 st2
        rw [hrg] at this
        exact this
      rcases b with _ | _
      · rfl
      · rw [getExec_refresh_true env2 git2 st2 _ _ hrg] at hmem
        exact absurd hmem (readPhase_no_cacheRead env2 git2 st3 evs3 hnev)

end CyberGIS

namespace CyberGIS

/-- **C8** (witness): concrete two-call run — first call clones and
caches, second call (same remote head) only fetches, logs and reads the
cache. -/
theorem claim8_witness :
    getExecutableManifest
        { head := some "h", cloneOk := true,
          cloneDisk := { sha := "h", manifest := some (some {}) },
          incrementalOk := true,
          pulledDisk := { sha := "h", manifest := some (some {}) }, nowMs := 5 }
        { id := "g", address := "a", sha := none }
        ((getExecutableManifest
          { head := some "h", cloneOk := true,
            cloneDisk := { sha := "h", manifest := some (some {}) },
            incrementalOk := true,
            pulledDisk := { sha := "h", manifest := some (some {}) }, nowMs := 5 }
          { id := "g", address := "a", sha := none }
          { disk := none, cache := [], updatedAt := none }).2.1)
      = (Except.ok (processExecutableManifest specCatalog "a" {}),
         (getExecutableManifest
          { head := some "h", cloneOk := true,
            cloneDisk := { sha := "h", manifest := some (some {}) },
            incrementalOk := true,
            pulledDisk := { sha := "h", manifest := some (some {}) }, nowMs := 5 }
          { id := "g", address := "a", sha := none }
          { disk := none, cache := [], updatedAt := none }).2.1,
         [Ev.removeZip, Ev.fetchEv, Ev.logEv, Ev.cacheReadEv]) :=
  (claim8_cache_reuse
    { head := some "h", cloneOk := true,
      cloneDisk := { sha := "h", manifest := some (some {}) },
      incrementalOk := true,
      pulledDisk := { sha := "h", manifest := some (some {}) }, nowMs := 5 }
    { id := "g", address := "a", sha := none }
    { disk := none, cache := [], updatedAt := none }
    (processExecutableManifest specCatalog "a" {}) "h"
    rfl rfl rfl rfl (by decide)).1

end CyberGIS
